import Mathlib

/-!
Verification of `scraper.py` (backmarket-assistant): a shallow embedding of the
review scraper's data model and of its three operations — `fetch_product_reviews`,
`process_reviews` and the pagination/checkpoint driver `fetch_and_process_reviews` —
together with theorems settling the specification claims about them.

JSON dictionaries are embedded as structures with `Option` fields (a `none` field
models an absent key; `.getD` models Python's `dict.get(key, default)`).
Python's insertion-ordered `dict` of reviews is embedded as an association list:
assigning to a present key rewrites it in place, assigning to a fresh key appends.
Wall-clock time (`time.time()`) is an environment parameter: an integer-valued
clock indexed by the number of calls made so far.  File-system effects (loads and
saves) are environment parameters and an event trace recorded in the run state.
-/

/-- Raw rating entry of a review's `details` array. -/
structure RawDetail where
  identifier : Option String
  rate : Option Int
deriving DecidableEq

/-- Raw `customer` object of a review. -/
structure RawCustomer where
  firstName : Option String
  lastName : Option String
deriving DecidableEq

/-- Raw `seller` object of a review. -/
structure RawSeller where
  id : Option String
  companyName : Option String
  companySlug : Option String
deriving DecidableEq

/-- Raw `product` object embedded in a review. -/
structure RawProduct where
  title : Option String
deriving DecidableEq

/-- A raw review as delivered in a page's `results` array. -/
structure RawReview where
  comment : Option String
  createdAt : Option String
  customer : Option RawCustomer
  seller : Option RawSeller
  details : Option (List RawDetail)
  product : Option RawProduct
deriving DecidableEq

/-- The JSON object `fetch_product_reviews` hands to the driver: `results` and
`next` keys of a page, or an `error` key built on a non-200 response. -/
structure ReviewsData where
  results : Option (List RawReview)
  next : Option String
  error : Option String
deriving DecidableEq

/-- Normalized seller info (`processed_review["seller"]`). -/
structure SellerInfo where
  id : String
  companyName : String
  companySlug : String
deriving DecidableEq

/-- Normalized rating entry (`processed_review["details"][i]`). -/
structure DetailEntry where
  identifier : String
  rate : Int
deriving DecidableEq

/-- A normalized review as built by `process_reviews`. -/
structure ProcessedReview where
  comment : String
  createdAt : String
  first_name : String
  last_name : String
  seller : SellerInfo
  details : List DetailEntry
deriving DecidableEq

/-- The output structure (`processed_data`): product name, product id and the
insertion-ordered reviews dictionary, embedded as an association list. -/
structure ProcessedData where
  product_name : Option String
  product_id : String
  reviews : List (String × ProcessedReview)
deriving DecidableEq

/-- Python truthiness of an optional string: `None` and `""` are falsy. -/
def strTruthy : Option String → Bool
  | none => false
  | some s => !s.isEmpty

/-- Python truthiness of `reviews_data.get("results")`: the key must be present
and the list non-empty (line 280 of the source and line 60's condition). -/
def resultsTruthy (d : ReviewsData) : Bool :=
  match d.results with
  | none => false
  | some l => !l.isEmpty

/-- Assignment `d[k] = v` on a Python (insertion-ordered) dict embedded as an
association list: a present key is rewritten in place, a fresh key is appended. -/
def dictInsert {α : Type} (d : List (String × α)) (k : String) (v : α) :
    List (String × α) :=
  if k ∈ d.map Prod.fst then
    d.map (fun p => if p.1 = k then (k, v) else p)
  else d ++ [(k, v)]

/-- Lines 97-104: the details loop `for i in range(min(5, len(details)))` with the
inner `if i < len(details)` guard, appending `{identifier, rate}` with defaults. -/
def extractDetails (details : List RawDetail) : List DetailEntry :=
  (List.range (min 5 details.length)).filterMap (fun i =>
    match details.get? i with
    | some d => some ⟨d.identifier.getD "", d.rate.getD 0⟩
    | none => none)

/-- Lines 77-104: build one processed review from a raw review, with every
missing scalar field defaulted to `""` (or `0` for a detail's rate). -/
def normalizeReview (r : RawReview) : ProcessedReview :=
  let customer := r.customer.getD ⟨none, none⟩
  let seller_info := r.seller.getD ⟨none, none, none⟩
  { comment := r.comment.getD ""
    createdAt := r.createdAt.getD ""
    first_name := customer.firstName.getD ""
    last_name := customer.lastName.getD ""
    seller := { id := seller_info.id.getD ""
                companyName := seller_info.companyName.getD ""
                companySlug := seller_info.companySlug.getD "" }
    details := extractDetails (r.details.getD []) }

/-- Lines 74-108: `for idx, review in enumerate(results)` assigning
`processed_data["reviews"][f"review_{idx+1}"]` in order. -/
def buildReviews (results : List RawReview) (idx : Nat)
    (acc : List (String × ProcessedReview)) : List (String × ProcessedReview) :=
  match results with
  | [] => acc
  | r :: rest =>
      buildReviews rest (idx + 1)
        (dictInsert acc ("review_" ++ Nat.repr (idx + 1)) (normalizeReview r))

/-- Lines 47-110: `process_reviews(reviews_data, product_id, product_name)`. -/
def process_reviews (reviews_data : ReviewsData) (product_id : String)
    (product_name : Option String) : ProcessedData :=
  let product_name :=
    if !strTruthy product_name && resultsTruthy reviews_data then
      match reviews_data.results.getD [] with
      | [] => product_name
      | first_review :: _ =>
          some (((first_review.product.getD ⟨none⟩).title).getD
            ("Product_" ++ product_id))
    else product_name
  { product_name := product_name
    product_id := product_id
    reviews := buildReviews (reviews_data.results.getD []) 0 [] }

def rawBlank : RawReview := ⟨none, none, none, none, none, none⟩

/-- Value of a decimal digit character. -/
def digitVal (c : Char) : Nat := c.toNat - '0'.toNat

/-- Value of a big-endian decimal digit string, as computed by Python's `int`
on the well-formed decimal strings this development applies it to. -/
def decimalVal (l : List Char) : Nat :=
  l.foldl (fun a c => a * 10 + digitVal c) 0

/-- Python's `s.split(sep, 1)`: the parts before and after the first
occurrence of `sep`, or `none` when `sep` does not occur. -/
def splitFirst (sep : Char) : List Char → Option (List Char × List Char)
  | [] => none
  | c :: rest =>
      if c = sep then some ([], rest)
      else
        match splitFirst sep rest with
        | none => none
        | some (a, b) => some (c :: a, b)

/-- Python's `s.split(sep)` for a one-character separator: all chunks, with
empty chunks kept (splitting the empty string yields `[[]]`). -/
def splitAll (sep : Char) : List Char → List (List Char)
  | [] => [[]]
  | c :: rest =>
      let r := splitAll sep rest
      if c = sep then [] :: r
      else
        match r with
        | [] => [[c]]
        | h :: t => (c :: h) :: t

/-- Hexadecimal digit value, as recognized by `urllib.parse.unquote`. -/
def hexVal (c : Char) : Option Nat :=
  if '0' ≤ c ∧ c ≤ '9' then some (c.toNat - '0'.toNat)
  else if 'a' ≤ c ∧ c ≤ 'f' then some (c.toNat - 'a'.toNat + 10)
  else if 'A' ≤ c ∧ c ≤ 'F' then some (c.toNat - 'A'.toNat + 10)
  else none

/-- Models percent-decoding done by `urllib.parse.unquote`: a `%` followed by two
hex digits becomes the character with that code (faithful for ASCII escapes, the
only ones the claims exercise); invalid escapes are passed through unchanged. -/
def pctDecode : List Char → List Char
  | [] => []
  | '%' :: a :: b :: rest =>
      match hexVal a, hexVal b with
      | some ha, some hb => Char.ofNat (16 * ha + hb) :: pctDecode rest
      | _, _ => '%' :: pctDecode (a :: b :: rest)
  | c :: rest => c :: pctDecode rest

/-- Models `urllib.parse.unquote_plus` (as used by `parse_qs`): `+` becomes a
space, then percent-escapes are decoded. -/
def unquotePlus (s : String) : String :=
  (pctDecode ((s.toList).map (fun c => if c = '+' then ' ' else c))).asString

/-- Models the query component extracted by `urllib.parse.urlparse`: the part of
the string after the first `?` (with any `#`-fragment first stripped). -/
def urlQuery (url : String) : String :=
  let noFrag :=
    match splitFirst '#' url.toList with
    | some (a, _) => a
    | none => url.toList
  match splitFirst '?' noFrag with
  | some (_, q) => q.asString
  | none => ""

/-- Models `urllib.parse.parse_qs` on a query string (default options): chunks
split on `&`, each split at the first `=`; chunks without `=` and chunks with an
empty value are dropped; names and values are `unquote_plus`-decoded. -/
def parseQsPairs (query : String) : List (String × String) :=
  (splitAll '&' query.toList).filterMap (fun nv =>
    if nv = [] then none
    else
      match splitFirst '=' nv with
      | none => none
      | some (name, value) =>
          if value = [] then none
          else some (unquotePlus name.asString, unquotePlus value.asString))

/-- Python's substring test `pat in s`. -/
def strContainsSub (s pat : String) : Bool :=
  (List.range (s.length + 1)).any (fun i => pat.toList.isPrefixOf (s.toList.drop i))

/-- Lines 317-330: compute the cursor for the next fetch from the page's `next`
token.  If the token is truthy and contains `"cursor="`, it is parsed as a URL
and the first `cursor` query-parameter value is extracted (`None` when absent);
otherwise the token itself is used. -/
def nextCursorOf (next_cursor : Option String) : Option String :=
  if strTruthy next_cursor && strContainsSub (next_cursor.getD "") "cursor=" then
    match (parseQsPairs (urlQuery (next_cursor.getD ""))).filter
        (fun p => p.1 = "cursor") with
    | (_, v) :: _ => some v
    | [] => none
  else next_cursor

/-- Outcome of the HTTP GET inside `fetch_product_reviews`: a response with a
status code and (parsed JSON) body, or an exception raised by `requests.get`. -/
inductive HttpOutcome where
  | response (status : Nat) (body : ReviewsData)
  | netError (msg : String)
deriving DecidableEq

/-- Lines 40-45: `fetch_product_reviews` returns the JSON body on status 200 and
an `{"error": ...}` dict on any other status.  The function body contains no
exception handler, so an exception raised by `requests.get` propagates to the
caller — modelled by `Except.error`. -/
def fetch_product_reviews (out : HttpOutcome) : Except String ReviewsData :=
  match out with
  | .netError msg => Except.error msg
  | .response status body =>
      if status = 200 then Except.ok body
      else Except.ok { results := none, next := none,
                       error := some ("Failed to fetch reviews: " ++ Nat.repr status) }

/-- Line 308: `int(review_id.split('_')[1])`, the decimal value of the second
`_`-separated chunk — well-defined on the ids `review_<n>` that
`process_reviews` produces, the only strings the merge loop applies it to. -/
def parseIdx (review_id : String) : Nat :=
  decimalVal ((splitAll '_' review_id.toList).getD 1 [])

/-- Lines 305-315: the merge loop over one page's reviews.  Each review is
stored under `review_<total + int(idx)>` (with `total` also incremented per
review), and the full accumulated data is saved whenever the new total is a
multiple of 10 and the output path is truthy.  Returns the new total, the new
data and the extended save trace. -/
def mergeReviews (output_file : Option String) :
    List (String × ProcessedReview) → Nat → ProcessedData →
    List (Nat × ProcessedData) → Nat × ProcessedData × List (Nat × ProcessedData)
  | [], total, data, saves => (total, data, saves)
  | (review_id, review_data) :: rest, total, data, saves =>
      let new_review_id := "review_" ++ Nat.repr (total + parseIdx review_id)
      let data' := { data with
                     reviews := dictInsert data.reviews new_review_id review_data }
      let total' := total + 1
      let saves' := if total' % 10 = 0 && strTruthy output_file
                    then saves ++ [(total', data')] else saves
      mergeReviews output_file rest total' data' saves'

/-- Environment of one driver run: the review source as a function from the
cursor passed to `fetch_product_reviews` to the dict the driver receives, the
wall clock indexed by the number of `time.time()` calls made so far, the
file-system predicates used when loading an existing checkpoint, and the
path produced by `get_reviews_path` for an extracted product name. -/
structure Env where
  fetch : Option String → ReviewsData
  clock : Nat → Int
  fileExists : String → Bool
  loadFile : String → Option ProcessedData
  reviews_path : String → String

/-- The driver's loop state: the Python locals of `fetch_and_process_reviews`
plus the observation traces (saves, sleeps, window resets, fetches with the
rate-limit counter at fetch time, counter values after each ingestion) and a
flag recording that the `while` loop exited through a `break`. -/
structure RunState where
  cursor : Option String
  page_count : Nat
  total_reviews_processed : Nat
  reviews_this_minute : Nat
  minute_start_time : Int
  tcalls : Nat
  extracted_product_name : Option String
  output_file : Option String
  processed_data : ProcessedData
  saves : List (Nat × ProcessedData)
  sleeps : List Int
  resets : Nat
  fetchLog : List (Option String × Nat)
  ingestLog : List Nat
  finished : Bool
deriving DecidableEq

/-- Lines 261-273: the rate-limit step at the top of each iteration.  If 60
seconds have elapsed since `minute_start_time`, the window is reset; otherwise
if the counter is at least 250 the driver sleeps for the remaining window time
(recorded in `sleeps`) and resets, re-reading the clock after the sleep. -/
def rlStep (env : Env) (st : RunState) : RunState :=
  if 60 ≤ env.clock st.tcalls - st.minute_start_time then
    { st with tcalls := st.tcalls + 1, minute_start_time := env.clock st.tcalls,
              reviews_this_minute := 0, resets := st.resets + 1 }
  else if 250 ≤ st.reviews_this_minute then
    { st with sleeps := st.sleeps ++ [60 - (env.clock st.tcalls - st.minute_start_time)],
              minute_start_time := env.clock (st.tcalls + 1),
              tcalls := st.tcalls + 2, reviews_this_minute := 0 }
  else { st with tcalls := st.tcalls + 1 }

/-- Lines 294-303: on the first page whose processed data carries a truthy
product name, record it, write it into the accumulated data, and — only when
`output_file is None` — resolve the output path via `get_reviews_path`. -/
def nameStep (env : Env) (page : ProcessedData) (st : RunState) : RunState :=
  if !strTruthy st.extracted_product_name && strTruthy page.product_name then
    if st.output_file = none then
      { st with
        extracted_product_name := page.product_name,
        processed_data := { st.processed_data with product_name := page.product_name },
        output_file := some (env.reviews_path (page.product_name.getD "")) }
    else
      { st with
        extracted_product_name := page.product_name,
        processed_data := { st.processed_data with product_name := page.product_name } }
  else st

/-- Lines 260-342: one iteration of the `while True` loop.  Returns the new
state and `true` when the loop continues with another iteration. -/
def loopIter (env : Env) (product_id : String) (product_name : Option String)
    (max_pages : Option Nat) (st0 : RunState) : RunState × Bool :=
  let st := rlStep env st0
  let reviews_data := env.fetch st.cursor
  let st := { st with fetchLog := st.fetchLog ++ [(st.cursor, st.reviews_this_minute)] }
  if resultsTruthy reviews_data then
    let n := (reviews_data.results.getD []).length
    let st := { st with reviews_this_minute := st.reviews_this_minute + n,
                        ingestLog := st.ingestLog ++ [st.reviews_this_minute + n] }
    let page := process_reviews reviews_data product_id product_name
    let st := nameStep env page st
    let m := mergeReviews st.output_file page.reviews
               st.total_reviews_processed st.processed_data st.saves
    let st := { st with total_reviews_processed := m.1, processed_data := m.2.1,
                        saves := m.2.2 }
    let cursor := nextCursorOf reviews_data.next
    let st := { st with cursor := cursor }
    if strTruthy cursor then
      let st := { st with page_count := st.page_count + 1 }
      if max_pages.getD 0 ≠ 0 ∧ max_pages.getD 0 ≤ st.page_count then (st, false)
      else (st, true)
    else (st, false)
  else (st, false)

/-- The `while True` loop, with explicit fuel bounding the number of iterations
(the Python loop can run forever on an unbounded source).  A run that exits via
`break` is marked `finished`; a fuel-exhausted run is not. -/
def runLoop (env : Env) (product_id : String) (product_name : Option String)
    (max_pages : Option Nat) : Nat → RunState → RunState
  | 0, st => st
  | Nat.succ fuel, st =>
      match loopIter env product_id product_name max_pages st with
      | (st', true) => runLoop env product_id product_name max_pages fuel st'
      | (st', false) => { st' with finished := true }

/-- Line 242 and lines 248-257: the initial accumulated structure, replaced by
the checkpoint loaded from `output_file` when that path is truthy and the file
exists and parses; the initial total is the loaded review count (0 otherwise). -/
def loadedData (env : Env) (product_name : Option String) (product_id : String)
    (output_file : Option String) : ProcessedData × Nat :=
  let initial : ProcessedData :=
    { product_name := product_name, product_id := product_id, reviews := [] }
  if strTruthy output_file && env.fileExists (output_file.getD "") then
    match env.loadFile (output_file.getD "") with
    | some d => (d, d.reviews.length)
    | none => (initial, 0)
  else (initial, 0)

/-- Lines 234-257: the state at the top of the first iteration.
`minute_start_time` is the first `time.time()` call (index 0). -/
def initState (env : Env) (product_name : Option String) (product_id : String)
    (output_file : Option String) : RunState :=
  { cursor := none, page_count := 0,
    total_reviews_processed := (loadedData env product_name product_id output_file).2,
    reviews_this_minute := 0, minute_start_time := env.clock 0, tcalls := 1,
    extracted_product_name := none, output_file := output_file,
    processed_data := (loadedData env product_name product_id output_file).1,
    saves := [], sleeps := [], resets := 0, fetchLog := [], ingestLog := [],
    finished := false }

/-- Lines 221-349: the full driver `fetch_and_process_reviews`.  The final save
(lines 344-347) runs after the loop exits, so it is performed only on a
`finished` run whose output path is truthy and whose total is not a multiple
of 10. -/
def fetch_and_process_reviews (env : Env) (product_id : String)
    (product_name : Option String) (output_file : Option String)
    (max_pages : Option Nat) (fuel : Nat) : RunState :=
  let st := runLoop env product_id product_name max_pages fuel
    (initState env product_name product_id output_file)
  if st.finished && strTruthy st.output_file && st.total_reviews_processed % 10 != 0
  then { st with saves := st.saves ++ [(st.total_reviews_processed, st.processed_data)] }
  else st

/-- A page of `n` field-less raw reviews with the given `next` token. -/
def mkPage (n : Nat) (next : Option String) : ReviewsData :=
  ⟨some (List.replicate n rawBlank), next, none⟩

/-- The processed form of a field-less raw review: all defaults. -/
def prBlank : ProcessedReview := normalizeReview rawBlank

/-- A checkpoint file holding seven reviews `review_1 .. review_7`. -/
def ckpt7 : ProcessedData :=
  { product_name := some "P", product_id := "42",
    reviews := (List.range 7).map (fun i => ("review_" ++ Nat.repr (i + 1), prBlank)) }

/-- Specification-side description of `process_reviews`' review entries: the
`results` list enumerated from `idx`, each review keyed `review_<position+1>`
and normalized, in input order. -/
def enumMapFrom (idx : Nat) : List RawReview → List (String × ProcessedReview)
  | [] => []
  | r :: rest =>
      ("review_" ++ Nat.repr (idx + 1), normalizeReview r) :: enumMapFrom (idx + 1) rest

/-- Source of one page of two reviews: exercises the merge re-indexing. -/
def envC1 : Env :=
  { fetch := fun _ => mkPage 2 none, clock := fun _ => 0,
    fileExists := fun _ => false, loadFile := fun _ => none,
    reviews_path := fun _ => "reviews/x.json" }

/-- Seven-review checkpoint on disk, then a source with one page of three
reviews: exercises resuming. -/
def envC2 : Env :=
  { fetch := fun _ => mkPage 3 none, clock := fun _ => 0,
    fileExists := fun _ => true, loadFile := fun _ => some ckpt7,
    reviews_path := fun _ => "x" }

/-- Source of six 50-review pages (300 reviews) chained by cursors `1`..`5`,
with the clock advancing one second per `time.time()` call. -/
def envC4 : Env :=
  { fetch := fun c =>
      match c with
      | none => mkPage 50 (some "1")
      | some s =>
          if decimalVal s.toList < 5 then
            mkPage 50 (some (Nat.repr (decimalVal s.toList + 1)))
          else mkPage 50 none,
    clock := fun i => Int.ofNat i, fileExists := fun _ => false,
    loadFile := fun _ => none, reviews_path := fun _ => "x" }

/-- Source of five 60-review pages (300 reviews) chained by cursors `1`..`4`,
within a simulated 10-second span. -/
def envC4x : Env :=
  { fetch := fun c =>
      match c with
      | none => mkPage 60 (some "1")
      | some s =>
          if decimalVal s.toList < 4 then
            mkPage 60 (some (Nat.repr (decimalVal s.toList + 1)))
          else mkPage 60 none,
    clock := fun i => Int.ofNat i, fileExists := fun _ => false,
    loadFile := fun _ => none, reviews_path := fun _ => "x" }

/-- Source of 25 one-review pages chained by cursors `1`..`24`. -/
def envC5 : Env :=
  { fetch := fun c =>
      match c with
      | none => mkPage 1 (some "1")
      | some s =>
          if decimalVal s.toList < 24 then
            mkPage 1 (some (Nat.repr (decimalVal s.toList + 1)))
          else mkPage 1 none,
    clock := fun _ => 0, fileExists := fun _ => false, loadFile := fun _ => none,
    reviews_path := fun _ => "x" }

/-- Source whose first page carries a `next` token that is a full URL without a
`cursor` query parameter; any cursor-bearing fetch gets an empty dict. -/
def envC6 : Env :=
  { fetch := fun c =>
      match c with
      | none => mkPage 1 (some "https://x.es/r?page=2")
      | some _ => ⟨none, none, none⟩,
    clock := fun _ => 0, fileExists := fun _ => false, loadFile := fun _ => none,
    reviews_path := fun _ => "x" }

/-- Unlimited source: every fetch yields a one-review page with a valid next
cursor. -/
def envC8 : Env :=
  { fetch := fun _ => mkPage 1 (some "n"), clock := fun _ => 0,
    fileExists := fun _ => false, loadFile := fun _ => none,
    reviews_path := fun _ => "x" }

/-- Seven-review checkpoint on disk and a source whose every fetch yields an
error dict (no `results` key). -/
def envC10 : Env :=
  { fetch := fun _ => ⟨none, none, some "err"⟩, clock := fun _ => 0,
    fileExists := fun _ => true, loadFile := fun _ => some ckpt7,
    reviews_path := fun _ => "x" }

theorem decimalVal_append_singleton (l : List Char) (c : Char) :
    decimalVal (l ++ [c]) = decimalVal l * 10 + digitVal c := by
  simp [decimalVal, List.foldl_append]

theorem toDigitsCore_append (b : Nat) :
    ∀ (fuel n : Nat) (ds : List Char),
      Nat.toDigitsCore b fuel n ds = Nat.toDigitsCore b fuel n [] ++ ds := by
  intro fuel
  induction fuel with
  | zero => intro n ds; simp [Nat.toDigitsCore]
  | succ fuel ih =>
      intro n ds
      simp only [Nat.toDigitsCore]
      by_cases h : n / b = 0
      · simp only [if_pos h]; rfl
      · simp only [if_neg h]
        rw [ih (n / b) (Nat.digitChar (n % b) :: ds),
            ih (n / b) [Nat.digitChar (n % b)], List.append_assoc]
        rfl

theorem digitVal_digitChar {m : Nat} (h : m < 10) :
    digitVal (Nat.digitChar m) = m := by
  interval_cases m <;> rfl

theorem decimalVal_toDigitsCore :
    ∀ (fuel n : Nat), n < fuel → decimalVal (Nat.toDigitsCore 10 fuel n []) = n := by
  intro fuel
  induction fuel with
  | zero => omega
  | succ fuel ih =>
      intro n hn
      simp only [Nat.toDigitsCore]
      by_cases h : n / 10 = 0
      · simp only [if_pos h]
        simp [decimalVal, digitVal_digitChar (Nat.mod_lt n (by decide))]
        omega
      · simp only [if_neg h]
        rw [toDigitsCore_append 10 fuel (n / 10) [Nat.digitChar (n % 10)],
            decimalVal_append_singleton, ih (n / 10) (by omega),
            digitVal_digitChar (Nat.mod_lt n (by decide))]
        omega

theorem natRepr_inj {a b : Nat} (h : Nat.repr a = Nat.repr b) : a = b := by
  have hd : Nat.toDigits 10 a = Nat.toDigits 10 b := congrArg String.data h
  have ha := decimalVal_toDigitsCore (a + 1) a (Nat.lt_succ_self a)
  have hb := decimalVal_toDigitsCore (b + 1) b (Nat.lt_succ_self b)
  unfold Nat.toDigits at hd
  rw [← ha, ← hb, hd]

theorem reviewId_inj {a b : Nat}
    (h : "review_" ++ Nat.repr a = "review_" ++ Nat.repr b) : a = b := by
  apply natRepr_inj
  have hd := congrArg String.data h
  simp only [String.data_append] at hd
  exact String.ext (List.append_cancel_left hd)

theorem dictInsert_fresh {α : Type} (d : List (String × α)) (k : String) (v : α)
    (h : k ∉ d.map Prod.fst) : dictInsert d k v = d ++ [(k, v)] := by
  simp [dictInsert, h]

theorem buildReviews_eq :
    ∀ (results : List RawReview) (idx : Nat) (acc : List (String × ProcessedReview)),
      (∀ k ∈ acc.map Prod.fst, ∃ j, 0 < j ∧ j ≤ idx ∧ k = "review_" ++ Nat.repr j) →
      buildReviews results idx acc = acc ++ enumMapFrom idx results := by
  intro results
  induction results with
  | nil => intro idx acc _; simp [buildReviews, enumMapFrom]
  | cons r rest ih =>
      intro idx acc hacc
      have hfresh : ("review_" ++ Nat.repr (idx + 1)) ∉ acc.map Prod.fst := by
        intro hmem
        obtain ⟨j, hj0, hjle, hk⟩ := hacc _ hmem
        have := reviewId_inj hk
        omega
      rw [buildReviews, dictInsert_fresh _ _ _ hfresh,
          ih (idx + 1) (acc ++ [("review_" ++ Nat.repr (idx + 1), normalizeReview r)]) ?_]
      · simp [enumMapFrom]
      · intro k hk
        simp only [List.map_append, List.mem_append, List.map_cons, List.map_nil,
          List.mem_cons, List.not_mem_nil, or_false] at hk
        rcases hk with hk | hk
        · obtain ⟨j, hj0, hjle, hkj⟩ := hacc _ hk
          exact ⟨j, hj0, by omega, hkj⟩
        · exact ⟨idx + 1, by omega, by omega, hk⟩

theorem enumMapFrom_map_snd :
    ∀ (idx : Nat) (l : List RawReview),
      (enumMapFrom idx l).map Prod.snd = l.map normalizeReview := by
  intro idx l
  induction l generalizing idx with
  | nil => simp [enumMapFrom]
  | cons r rest ih => simp [enumMapFrom, ih]

theorem enumMapFrom_map_fst :
    ∀ (idx : Nat) (l : List RawReview),
      (enumMapFrom idx l).map Prod.fst
        = (List.range l.length).map (fun i => "review_" ++ Nat.repr (idx + i + 1)) := by
  intro idx l
  induction l generalizing idx with
  | nil => simp [enumMapFrom]
  | cons r rest ih =>
      simp only [enumMapFrom, List.map_cons, List.length_cons, List.range_succ_eq_map,
        List.map_map, ih (idx + 1)]
      congr 1
      apply List.map_congr_left
      intro i _
      have h1 : idx + 1 + i + 1 = idx + (i + 1) + 1 := by omega
      simp [Function.comp, h1]

theorem enumMapFrom_length :
    ∀ (idx : Nat) (l : List RawReview), (enumMapFrom idx l).length = l.length := by
  intro idx l
  induction l generalizing idx with
  | nil => rfl
  | cons r rest ih => simp [enumMapFrom, ih]

theorem extractDetails_take :
    ∀ (k : Nat) (l : List RawDetail),
      (List.range (min k l.length)).filterMap (fun i =>
        match l.get? i with
        | some d => some (⟨d.identifier.getD "", d.rate.getD 0⟩ : DetailEntry)
        | none => none)
      = (l.take k).map (fun d => ⟨d.identifier.getD "", d.rate.getD 0⟩) := by
  intro k l
  induction l generalizing k with
  | nil => simp
  | cons x xs ih =>
      cases k with
      | zero => simp
      | succ k =>
          rw [List.length_cons, Nat.succ_min_succ, List.range_succ_eq_map]
          simp only [List.filterMap_cons, List.get?_cons_zero, List.filterMap_map]
          rw [List.take_succ_cons, List.map_cons]
          congr 1
          rw [← ih k]
          apply List.filterMap_congr
          intro i _
          simp [Function.comp]

theorem extractDetails_eq (l : List RawDetail) :
    extractDetails l
      = (l.take 5).map (fun d => ⟨d.identifier.getD "", d.rate.getD 0⟩) :=
  extractDetails_take 5 l

theorem process_reviews_reviews_eq (d : ReviewsData) (product_id : String)
    (product_name : Option String) :
    (process_reviews d product_id product_name).reviews
      = enumMapFrom 0 (d.results.getD []) := by
  show buildReviews (d.results.getD []) 0 [] = _
  rw [buildReviews_eq (d.results.getD []) 0 [] (by simp)]
  simp

/-- C3: for every raw page with K raw reviews, `process_reviews` produces
exactly K entries, values in input order (each the normalization of the
corresponding raw review), keys `review_1 .. review_K` in order; every
normalized review's `details` list is the first five raw detail entries
(hence length at most 5) with identifier/rate defaulting to `""`/`0`; and a
raw review with every field missing normalizes to all-default values. -/
theorem C3_normalization (d : ReviewsData) (product_id : String)
    (product_name : Option String) :
    ((process_reviews d product_id product_name).reviews).length
        = (d.results.getD []).length
  ∧ ((process_reviews d product_id product_name).reviews).map Prod.snd
        = (d.results.getD []).map normalizeReview
  ∧ ((process_reviews d product_id product_name).reviews).map Prod.fst
        = (List.range (d.results.getD []).length).map
            (fun i => "review_" ++ Nat.repr (i + 1))
  ∧ (∀ r : RawReview,
        (normalizeReview r).details
            = ((r.details.getD []).take 5).map
                (fun x => ⟨x.identifier.getD "", x.rate.getD 0⟩)
        ∧ (normalizeReview r).details.length ≤ 5)
  ∧ normalizeReview rawBlank
      = { comment := "", createdAt := "", first_name := "", last_name := "",
          seller := { id := "", companyName := "", companySlug := "" },
          details := [] } := by
  refine ⟨?_, ?_, ?_, ?_, by decide⟩
  · rw [process_reviews_reviews_eq]; exact enumMapFrom_length 0 _
  · rw [process_reviews_reviews_eq]; exact enumMapFrom_map_snd 0 _
  · rw [process_reviews_reviews_eq, enumMapFrom_map_fst 0]
    apply List.map_congr_left
    intro i _
    simp
  · intro r
    constructor
    · show extractDetails (r.details.getD []) = _
      exact extractDetails_eq _
    · show (extractDetails (r.details.getD [])).length ≤ 5
      rw [extractDetails_eq]
      simp only [List.length_map, List.length_take]
      omega

/-- C7 counterexample: with `productName` absent and an empty page,
`process_reviews` leaves the product name absent — it does not fall back to
`"Product_<productId>"` as the claim states. -/
theorem C7_counterexample :
    (process_reviews ⟨some [], none, none⟩ "42" none).product_name = none ∧
    (process_reviews ⟨some [], none, none⟩ "42" none).product_name
      ≠ some "Product_42" := by
  decide

/-- C7 (amended): with `productName` absent and a non-empty page, the returned
product name is the first review's embedded product title, falling back to
`"Product_<productId>"` when that review carries no title; with an empty (or
absent) results list the product name stays absent. -/
theorem C7_amended (d : ReviewsData) (product_id : String) :
    (∀ (first : RawReview) (rest : List RawReview),
        d.results = some (first :: rest) →
        (process_reviews d product_id none).product_name
          = some (((first.product.getD ⟨none⟩).title).getD
              ("Product_" ++ product_id)))
  ∧ (resultsTruthy d = false →
        (process_reviews d product_id none).product_name = none) := by
  constructor
  · intro first rest h
    simp [process_reviews, resultsTruthy, strTruthy, h]
  · intro h
    simp [process_reviews, strTruthy, h]

theorem C7_amended_witness :
    (⟨some [rawBlank], none, none⟩ : ReviewsData).results = some (rawBlank :: [])
    ∧ (process_reviews ⟨some [rawBlank], none, none⟩ "7" none).product_name
        = some (((rawBlank.product.getD ⟨none⟩).title).getD ("Product_" ++ "7")) :=
  ⟨rfl, (C7_amended ⟨some [rawBlank], none, none⟩ "7").1 rawBlank [] rfl⟩

/-- C1: the claim states the reviews keys form the contiguous run
`review_1 .. review_K`.  The merge loop (line 308) adds the page-local index to
`total_reviews_processed` while also incrementing the total per review, so a
single page of two reviews is stored under `review_1` and `review_3` (K = 2,
key `review_2` missing): the code contradicts the claimed invariant. -/
theorem C1_code_bug_eval :
    (fetch_and_process_reviews envC1 "p1" none none none 3).processed_data.reviews.map
        Prod.fst = ["review_1", "review_3"]
    ∧ (fetch_and_process_reviews envC1 "p1" none none
        none 3).total_reviews_processed = 2 := by
  decide

/-- C2: resuming from a 7-review checkpoint, a page of three new reviews is
stored under `review_8`, `review_10`, `review_12` (not `review_8..review_10`
as the claim states), by the same double-increment in the merge loop; the
first seven entries are preserved. -/
theorem C2_code_bug_eval :
    (fetch_and_process_reviews envC2 "42" none (some "out.json")
        none 3).processed_data.reviews.map Prod.fst
      = ["review_1", "review_2", "review_3", "review_4", "review_5", "review_6",
         "review_7", "review_8", "review_10", "review_12"]
    ∧ (fetch_and_process_reviews envC2 "42" none (some "out.json")
        none 3).processed_data.reviews.take 7 = ckpt7.reviews := by
  decide

theorem rlStep_cursor (env : Env) (st : RunState) :
    (rlStep env st).cursor = st.cursor := by
  unfold rlStep
  split
  · rfl
  · split <;> rfl

theorem rlStep_page_count (env : Env) (st : RunState) :
    (rlStep env st).page_count = st.page_count := by
  unfold rlStep
  split
  · rfl
  · split <;> rfl

theorem rlStep_total (env : Env) (st : RunState) :
    (rlStep env st).total_reviews_processed = st.total_reviews_processed := by
  unfold rlStep
  split
  · rfl
  · split <;> rfl

theorem rlStep_output_file (env : Env) (st : RunState) :
    (rlStep env st).output_file = st.output_file := by
  unfold rlStep
  split
  · rfl
  · split <;> rfl

theorem rlStep_extracted (env : Env) (st : RunState) :
    (rlStep env st).extracted_product_name = st.extracted_product_name := by
  unfold rlStep
  split
  · rfl
  · split <;> rfl

theorem rlStep_data (env : Env) (st : RunState) :
    (rlStep env st).processed_data = st.processed_data := by
  unfold rlStep
  split
  · rfl
  · split <;> rfl

theorem rlStep_saves (env : Env) (st : RunState) :
    (rlStep env st).saves = st.saves := by
  unfold rlStep
  split
  · rfl
  · split <;> rfl

theorem rlStep_fetchLog (env : Env) (st : RunState) :
    (rlStep env st).fetchLog = st.fetchLog := by
  unfold rlStep
  split
  · rfl
  · split <;> rfl

theorem rlStep_finished (env : Env) (st : RunState) :
    (rlStep env st).finished = st.finished := by
  unfold rlStep
  split
  · rfl
  · split <;> rfl

theorem rlStep_rtm_lt (env : Env) (st : RunState) :
    (rlStep env st).reviews_this_minute < 250 := by
  unfold rlStep
  split
  · exact Nat.zero_lt_succ _
  · split
    · exact Nat.zero_lt_succ _
    · simp only []
      omega

theorem nameStep_output_file {st : RunState} {p : String} (env : Env)
    (page : ProcessedData) (h : st.output_file = some p) :
    (nameStep env page st).output_file = some p := by
  unfold nameStep
  split
  · split
    · simp_all
    · exact h
  · exact h

theorem nameStep_total (env : Env) (page : ProcessedData) (st : RunState) :
    (nameStep env page st).total_reviews_processed = st.total_reviews_processed := by
  unfold nameStep
  split
  · split <;> rfl
  · rfl

theorem nameStep_saves (env : Env) (page : ProcessedData) (st : RunState) :
    (nameStep env page st).saves = st.saves := by
  unfold nameStep
  split
  · split <;> rfl
  · rfl

theorem nameStep_fetchLog (env : Env) (page : ProcessedData) (st : RunState) :
    (nameStep env page st).fetchLog = st.fetchLog := by
  unfold nameStep
  split
  · split <;> rfl
  · rfl

theorem nameStep_page_count (env : Env) (page : ProcessedData) (st : RunState) :
    (nameStep env page st).page_count = st.page_count := by
  unfold nameStep
  split
  · split <;> rfl
  · rfl

theorem nameStep_finished (env : Env) (page : ProcessedData) (st : RunState) :
    (nameStep env page st).finished = st.finished := by
  unfold nameStep
  split
  · split <;> rfl
  · rfl

theorem mergeReviews_total (output_file : Option String) :
    ∀ (l : List (String × ProcessedReview)) (total : Nat) (data : ProcessedData)
      (saves : List (Nat × ProcessedData)),
      (mergeReviews output_file l total data saves).1 = total + l.length := by
  intro l
  induction l with
  | nil => intro total data saves; simp [mergeReviews]
  | cons x rest ih =>
      intro total data saves
      obtain ⟨rid, rv⟩ := x
      rw [mergeReviews]
      rw [ih]
      simp
      omega

theorem mergeReviews_saves_fst {output_file : Option String}
    (h : strTruthy output_file = true) :
    ∀ (l : List (String × ProcessedReview)) (total : Nat) (data : ProcessedData)
      (saves : List (Nat × ProcessedData)),
      ((mergeReviews output_file l total data saves).2.2).map Prod.fst
        = saves.map Prod.fst
          ++ (List.range' (total + 1) l.length).filter (fun t => t % 10 = 0) := by
  intro l
  induction l with
  | nil => intro total data saves; simp [mergeReviews]
  | cons x rest ih =>
      intro total data saves
      obtain ⟨rid, rv⟩ := x
      rw [mergeReviews]
      rw [ih]
      rw [List.length_cons, List.range'_succ, List.filter_cons]
      by_cases h10 : (total + 1) % 10 = 0
      · simp [h, h10]
      · simp [h, h10]

theorem loopIter_noResults (env : Env) (pid : String) (pn : Option String)
    (mp : Option Nat) (st : RunState)
    (h : resultsTruthy (env.fetch st.cursor) = false) :
    (loopIter env pid pn mp st).2 = false
    ∧ (loopIter env pid pn mp st).1.processed_data = st.processed_data
    ∧ (loopIter env pid pn mp st).1.total_reviews_processed
        = st.total_reviews_processed
    ∧ (loopIter env pid pn mp st).1.saves = st.saves
    ∧ (loopIter env pid pn mp st).1.output_file = st.output_file
    ∧ (loopIter env pid pn mp st).1.cursor = st.cursor
    ∧ (loopIter env pid pn mp st).1.finished = st.finished := by
  have hc : env.fetch (rlStep env st).cursor = env.fetch st.cursor := by
    rw [rlStep_cursor]
  simp only [loopIter, hc, h]
  simp [rlStep_data, rlStep_total, rlStep_saves, rlStep_output_file,
    rlStep_cursor, rlStep_finished]

theorem loopIter_fetchLog (env : Env) (pid : String) (pn : Option String)
    (mp : Option Nat) (st : RunState) :
    (loopIter env pid pn mp st).1.fetchLog
      = st.fetchLog ++ [(st.cursor, (rlStep env st).reviews_this_minute)] := by
  simp only [loopIter]
  split
  · split
    · split <;>
        simp [nameStep_fetchLog, rlStep_fetchLog, rlStep_cursor]
    · simp [nameStep_fetchLog, rlStep_fetchLog, rlStep_cursor]
  · simp [rlStep_fetchLog, rlStep_cursor]

theorem strTruthy_some {p : String} (hp : p ≠ "") : strTruthy (some p) = true := by
  cases h : p.isEmpty with
  | false => simp [strTruthy, h]
  | true => exact absurd ((String.isEmpty_iff p).mp h) hp

theorem loopIter_saves {st : RunState} {p : String} (env : Env) (pid : String)
    (pn : Option String) (mp : Option Nat)
    (hof : st.output_file = some p) (hp : p ≠ "") :
    (loopIter env pid pn mp st).1.output_file = some p
    ∧ st.total_reviews_processed
        ≤ (loopIter env pid pn mp st).1.total_reviews_processed
    ∧ (loopIter env pid pn mp st).1.saves.map Prod.fst
        = st.saves.map Prod.fst
          ++ (List.range' (st.total_reviews_processed + 1)
              ((loopIter env pid pn mp st).1.total_reviews_processed
                - st.total_reviews_processed)).filter (fun t => t % 10 = 0) := by
  have h1 : (rlStep env st).output_file = some p := by
    rw [rlStep_output_file]; exact hof
  simp only [loopIter]
  split
  · split
    · split <;>
        simp [nameStep_output_file _ _ h1, nameStep_total, nameStep_saves,
          rlStep_total, rlStep_saves, mergeReviews_total,
          mergeReviews_saves_fst (strTruthy_some hp), nameStep_output_file,
          h1, Nat.add_sub_cancel_left]
    · simp [nameStep_output_file _ _ h1, nameStep_total, nameStep_saves,
        rlStep_total, rlStep_saves, mergeReviews_total,
        mergeReviews_saves_fst (strTruthy_some hp), nameStep_output_file,
        h1, Nat.add_sub_cancel_left]
  · simp [h1, rlStep_total, rlStep_saves]

theorem loopIter_page_count_le (env : Env) (pid : String) (pn : Option String)
    (mp : Option Nat) (st : RunState) :
    (loopIter env pid pn mp st).1.page_count ≤ st.page_count + 1 := by
  simp only [loopIter]
  split
  · split
    · split <;>
        simp [nameStep_page_count, rlStep_page_count]
    · simp [nameStep_page_count, rlStep_page_count]
  · simp [rlStep_page_count]

theorem loopIter_cont (env : Env) (pid : String) (pn : Option String)
    (mp : Option Nat) (st : RunState)
    (h : (loopIter env pid pn mp st).2 = true) :
    (loopIter env pid pn mp st).1.page_count = st.page_count + 1
    ∧ (mp.getD 0 ≠ 0 → (loopIter env pid pn mp st).1.page_count < mp.getD 0) := by
  have hc : env.fetch (rlStep env st).cursor = env.fetch st.cursor := by
    rw [rlStep_cursor]
  by_cases hres : resultsTruthy (env.fetch st.cursor) = true
  · by_cases hcur : strTruthy (nextCursorOf (env.fetch st.cursor).next) = true
    · by_cases hmp : mp.getD 0 ≠ 0 ∧ mp.getD 0 ≤ st.page_count + 1
      · exfalso
        revert h
        simp [loopIter, hc, hres, hcur, nameStep_page_count, rlStep_page_count, hmp]
      · constructor
        · simp [loopIter, hc, hres, hcur, nameStep_page_count, rlStep_page_count, hmp]
        · intro hmp0
          simp only [not_and, not_le] at hmp
          have h2 := hmp hmp0
          have h3 : ¬(mp.getD 0 ≠ 0 ∧ mp.getD 0 ≤ st.page_count + 1) := by
            intro hx
            obtain ⟨hx1, hx2⟩ := hx
            omega
          simp [loopIter, hc, hres, hcur, nameStep_page_count, rlStep_page_count, h3]
          omega
    · exfalso
      revert h
      simp [loopIter, hc, hres, hcur]
  · exfalso
    revert h
    simp [loopIter, hc, hres]

theorem loopIter_cont_cursor (env : Env) (pid : String) (pn : Option String)
    (mp : Option Nat) (st : RunState)
    (h : (loopIter env pid pn mp st).2 = true) :
    (loopIter env pid pn mp st).1.cursor
      = nextCursorOf (env.fetch st.cursor).next
    ∧ strTruthy (loopIter env pid pn mp st).1.cursor = true := by
  have hc : env.fetch (rlStep env st).cursor = env.fetch st.cursor := by
    rw [rlStep_cursor]
  by_cases hres : resultsTruthy (env.fetch st.cursor) = true
  · by_cases hcur : strTruthy (nextCursorOf (env.fetch st.cursor).next) = true
    · by_cases hmp : mp.getD 0 ≠ 0 ∧ mp.getD 0 ≤ st.page_count + 1
      · exfalso
        revert h
        simp [loopIter, hc, hres, hcur, nameStep_page_count, rlStep_page_count, hmp]
      · constructor <;>
          simp [loopIter, hc, hres, hcur, nameStep_page_count, rlStep_page_count, hmp]
    · exfalso
      revert h
      simp [loopIter, hc, hres, hcur]
  · exfalso
    revert h
    simp [loopIter, hc, hres]

theorem loopIter_stop_of_cursor (env : Env) (pid : String) (pn : Option String)
    (mp : Option Nat) (st : RunState)
    (hcur : strTruthy (nextCursorOf (env.fetch st.cursor).next) = false) :
    (loopIter env pid pn mp st).2 = false := by
  have hc : env.fetch (rlStep env st).cursor = env.fetch st.cursor := by
    rw [rlStep_cursor]
  simp only [loopIter, hc]
  split
  · split
    · split <;> simp_all
    · rfl
  · rfl

theorem runLoop_fetchLog_lt (env : Env) (pid : String) (pn : Option String)
    (mp : Option Nat) :
    ∀ (fuel : Nat) (st : RunState),
      (∀ x ∈ st.fetchLog, x.2 < 250) →
      ∀ x ∈ (runLoop env pid pn mp fuel st).fetchLog, x.2 < 250 := by
  intro fuel
  induction fuel with
  | zero => intro st h; simpa [runLoop] using h
  | succ fuel ih =>
      intro st h
      have hlog := loopIter_fetchLog env pid pn mp st
      have hlt := rlStep_rtm_lt env st
      rcases hli : loopIter env pid pn mp st with ⟨st1, b⟩
      simp only [hli] at hlog
      have h1 : ∀ x ∈ st1.fetchLog, x.2 < 250 := by
        intro x hx
        rw [hlog] at hx
        rcases List.mem_append.mp hx with hx | hx
        · exact h x hx
        · rcases List.mem_singleton.mp hx with rfl
          exact hlt
      cases b with
      | true =>
          simp only [runLoop, hli]
          exact ih st1 h1
      | false =>
          simp only [runLoop, hli]
          exact h1

theorem runLoop_saves {p : String} (env : Env) (pid : String) (pn : Option String)
    (mp : Option Nat) (hp : p ≠ "") :
    ∀ (fuel : Nat) (st : RunState), st.output_file = some p →
      (runLoop env pid pn mp fuel st).output_file = some p
      ∧ st.total_reviews_processed
          ≤ (runLoop env pid pn mp fuel st).total_reviews_processed
      ∧ (runLoop env pid pn mp fuel st).saves.map Prod.fst
          = st.saves.map Prod.fst
            ++ (List.range' (st.total_reviews_processed + 1)
                ((runLoop env pid pn mp fuel st).total_reviews_processed
                  - st.total_reviews_processed)).filter (fun t => t % 10 = 0) := by
  intro fuel
  induction fuel with
  | zero =>
      intro st hof
      refine ⟨hof, Nat.le_refl _, ?_⟩
      simp [runLoop]
  | succ fuel ih =>
      intro st hof
      obtain ⟨ho1, hle1, hs1⟩ := loopIter_saves env pid pn mp hof hp
      rcases hli : loopIter env pid pn mp st with ⟨st1, b⟩
      simp only [hli] at ho1 hle1 hs1
      cases b with
      | false =>
          simp only [runLoop, hli]
          exact ⟨ho1, hle1, hs1⟩
      | true =>
          simp only [runLoop, hli]
          obtain ⟨ho2, hle2, hs2⟩ := ih st1 ho1
          refine ⟨ho2, Nat.le_trans hle1 hle2, ?_⟩
          rw [hs2, hs1]
          rw [List.append_assoc, ← List.filter_append]
          congr 2
          have hm : st.total_reviews_processed + 1
              + (st1.total_reviews_processed - st.total_reviews_processed)
              = st1.total_reviews_processed + 1 := by omega
          rw [← hm, List.range'_append_1]
          congr 1
          omega

theorem runLoop_pages (env : Env) (pid : String) (pn : Option String)
    (m : Nat) (hm : 1 ≤ m) :
    ∀ (fuel : Nat) (st : RunState),
      st.fetchLog.length = st.page_count → st.page_count < m →
      (runLoop env pid pn (some m) fuel st).fetchLog.length ≤ m
      ∧ (m - st.page_count ≤ fuel →
          (runLoop env pid pn (some m) fuel st).finished = true) := by
  intro fuel
  induction fuel with
  | zero =>
      intro st hlen hpc
      constructor
      · simp only [runLoop]
        omega
      · intro h
        omega
  | succ fuel ih =>
      intro st hlen hpc
      have hlog := loopIter_fetchLog env pid pn (some m) st
      rcases hli : loopIter env pid pn (some m) st with ⟨st1, b⟩
      simp only [hli] at hlog
      cases b with
      | false =>
          simp only [runLoop, hli]
          refine ⟨?_, fun _ => ?_⟩
          · show st1.fetchLog.length ≤ m
            rw [hlog]
            rw [List.length_append, List.length_singleton, hlen]
            omega
          · trivial
      | true =>
          have hcont := loopIter_cont env pid pn (some m) st (by rw [hli])
          simp only [hli, Option.getD_some] at hcont
          simp only [runLoop, hli]
          have h1 : st1.fetchLog.length = st1.page_count := by
            rw [hlog, hcont.1, List.length_append, List.length_singleton, hlen]
          have h2 : st1.page_count < m := by
            apply hcont.2
            omega
          obtain ⟨ha, hb⟩ := ih st1 h1 h2
          refine ⟨ha, fun hf => hb ?_⟩
          have := hcont.1
          omega

theorem runLoop_first_empty (env : Env) (pid : String) (pn : Option String)
    (mp : Option Nat) (fuel : Nat) (hf : 1 ≤ fuel) (st : RunState)
    (h : resultsTruthy (env.fetch st.cursor) = false) :
    (runLoop env pid pn mp fuel st).processed_data = st.processed_data
    ∧ (runLoop env pid pn mp fuel st).total_reviews_processed
        = st.total_reviews_processed
    ∧ (runLoop env pid pn mp fuel st).saves = st.saves
    ∧ (runLoop env pid pn mp fuel st).output_file = st.output_file
    ∧ (runLoop env pid pn mp fuel st).finished = true := by
  cases fuel with
  | zero => omega
  | succ fuel =>
      obtain ⟨hb, hdata, htot, hsaves, hout, _, _⟩ :=
        loopIter_noResults env pid pn mp st h
      rcases hli : loopIter env pid pn mp st with ⟨st1, b⟩
      simp only [hli] at hb hdata htot hsaves hout
      cases b with
      | true => exact absurd hb (by simp)
      | false =>
          simp only [runLoop, hli]
          refine ⟨hdata, htot, hsaves, hout, ?_⟩
          trivial

theorem fp_fetchLog (env : Env) (pid : String) (pn : Option String)
    (of : Option String) (mp : Option Nat) (fuel : Nat) :
    (fetch_and_process_reviews env pid pn of mp fuel).fetchLog
      = (runLoop env pid pn mp fuel (initState env pn pid of)).fetchLog := by
  unfold fetch_and_process_reviews
  dsimp only
  split <;> rfl

theorem fp_total (env : Env) (pid : String) (pn : Option String)
    (of : Option String) (mp : Option Nat) (fuel : Nat) :
    (fetch_and_process_reviews env pid pn of mp fuel).total_reviews_processed
      = (runLoop env pid pn mp fuel (initState env pn pid of)).total_reviews_processed := by
  unfold fetch_and_process_reviews
  dsimp only
  split <;> rfl

theorem fp_finished (env : Env) (pid : String) (pn : Option String)
    (of : Option String) (mp : Option Nat) (fuel : Nat) :
    (fetch_and_process_reviews env pid pn of mp fuel).finished
      = (runLoop env pid pn mp fuel (initState env pn pid of)).finished := by
  unfold fetch_and_process_reviews
  dsimp only
  split <;> rfl

theorem fp_data (env : Env) (pid : String) (pn : Option String)
    (of : Option String) (mp : Option Nat) (fuel : Nat) :
    (fetch_and_process_reviews env pid pn of mp fuel).processed_data
      = (runLoop env pid pn mp fuel (initState env pn pid of)).processed_data := by
  unfold fetch_and_process_reviews
  dsimp only
  split <;> rfl

theorem fp_output_file (env : Env) (pid : String) (pn : Option String)
    (of : Option String) (mp : Option Nat) (fuel : Nat) :
    (fetch_and_process_reviews env pid pn of mp fuel).output_file
      = (runLoop env pid pn mp fuel (initState env pn pid of)).output_file := by
  unfold fetch_and_process_reviews
  dsimp only
  split <;> rfl

theorem fp_saves (env : Env) (pid : String) (pn : Option String)
    (of : Option String) (mp : Option Nat) (fuel : Nat) :
    (fetch_and_process_reviews env pid pn of mp fuel).saves
      = (if (runLoop env pid pn mp fuel (initState env pn pid of)).finished
            && strTruthy (runLoop env pid pn mp fuel
                (initState env pn pid of)).output_file
            && ((runLoop env pid pn mp fuel
                (initState env pn pid of)).total_reviews_processed % 10 != 0)
         then (runLoop env pid pn mp fuel (initState env pn pid of)).saves
              ++ [((runLoop env pid pn mp fuel
                    (initState env pn pid of)).total_reviews_processed,
                   (runLoop env pid pn mp fuel
                    (initState env pn pid of)).processed_data)]
         else (runLoop env pid pn mp fuel (initState env pn pid of)).saves) := by
  unfold fetch_and_process_reviews
  dsimp only
  split <;> simp

set_option maxRecDepth 100000 in
/-- C4 counterexample: a source delivering 300 reviews in five 60-review pages
within a simulated 10-second span is consumed with no sleep and no window
reset: the window counter reaches 300, so more than 250 reviews are ingested
within a rolling 60-second window without any sleep being issued first,
contrary to the claimed guarantee (the pre-fetch check cannot account for the
size of the page about to be ingested). -/
theorem C4_counterexample :
    (fetch_and_process_reviews envC4x "p" none (some "o") none 10).sleeps = []
    ∧ (fetch_and_process_reviews envC4x "p" none (some "o") none 10).resets = 0
    ∧ (fetch_and_process_reviews envC4x "p" none (some "o") none 10).ingestLog
        = [60, 120, 180, 240, 300] := by
  decide

set_option maxRecDepth 100000 in
/-- C4 (amended): at the top of each iteration the window is reset once 60
seconds have elapsed, and otherwise a sleep for the remaining window time is
issued whenever the counter has reached or exceeded 250 — hence every fetch is
issued with the window counter strictly below 250, and the window count can
pass 250 only by the reviews of the single page that crosses the threshold.
In particular, for a source returning 300 reviews in six 50-review pages
within a simulated 10-second span, one sleep (of the remaining 54 seconds) is
issued exactly when the window count reaches 250, before any further fetch. -/
theorem C4_amended :
    (∀ (env : Env) (pid : String) (pn : Option String) (of : Option String)
        (mp : Option Nat) (fuel : Nat),
        ∀ x ∈ (fetch_and_process_reviews env pid pn of mp fuel).fetchLog,
          x.2 < 250)
    ∧ (fetch_and_process_reviews envC4 "p" none (some "o") none 10).sleeps = [54]
    ∧ (fetch_and_process_reviews envC4 "p" none (some "o") none 10).ingestLog
        = [50, 100, 150, 200, 250, 50] := by
  refine ⟨?_, by decide, by decide⟩
  intro env pid pn of mp fuel x hx
  rw [fp_fetchLog] at hx
  refine runLoop_fetchLog_lt env pid pn mp fuel (initState env pn pid of) ?_ x hx
  intro y hy
  simp [initState] at hy

theorem C4_amended_witness :
    ((none : Option String), 0) ∈
      (fetch_and_process_reviews envC8 "p" none (some "o") (some 2) 10).fetchLog
    ∧ (((none : Option String), 0) : Option String × Nat).2 < 250 :=
  ⟨by decide, C4_amended.1 envC8 "p" none (some "o") (some 2) 10 (none, 0) (by decide)⟩

/-- C5: with a resolved (truthy) output path, the totals at which the full
collection is persisted are exactly the totals in the run's range that are
multiples of 10, plus one final persist — on a finished run — exactly when the
final total is not a multiple of 10; for 25 reviews ingested one page at a
time this yields persists at totals 10, 20 and 25. -/
theorem C5_checkpoint_cadence (env : Env) (pid : String) (pn : Option String)
    (mp : Option Nat) (fuel : Nat) (p : String) (hp : p ≠ "") :
    ((fetch_and_process_reviews env pid pn (some p) mp fuel).saves.map Prod.fst
      = (List.range' ((loadedData env pn pid (some p)).2 + 1)
          ((fetch_and_process_reviews env pid pn (some p) mp fuel).total_reviews_processed
            - (loadedData env pn pid (some p)).2)).filter (fun t => t % 10 = 0)
        ++ (if (fetch_and_process_reviews env pid pn (some p) mp fuel).finished = true
              ∧ (fetch_and_process_reviews env pid pn (some p) mp
                  fuel).total_reviews_processed % 10 ≠ 0
            then [(fetch_and_process_reviews env pid pn (some p) mp
                    fuel).total_reviews_processed]
            else []))
    ∧ (fetch_and_process_reviews envC5 "p" none (some "o.json") none 30).saves.map
        Prod.fst = [10, 20, 25] := by
  refine ⟨?_, by decide⟩
  have hinit : (initState env pn pid (some p)).output_file = some p := rfl
  obtain ⟨ho, hle, hs⟩ :=
    runLoop_saves env pid pn mp hp fuel (initState env pn pid (some p)) hinit
  have hstr : strTruthy (runLoop env pid pn mp fuel
      (initState env pn pid (some p))).output_file = true := by
    rw [ho]; exact strTruthy_some hp
  have htot : (initState env pn pid (some p)).total_reviews_processed
      = (loadedData env pn pid (some p)).2 := rfl
  have hsv : (initState env pn pid (some p)).saves = [] := rfl
  rw [hsv] at hs
  simp only [List.map_nil, List.nil_append] at hs
  rw [fp_saves, fp_total, fp_finished, ← htot]
  by_cases hfin :
      (runLoop env pid pn mp fuel (initState env pn pid (some p))).finished = true
  · by_cases h10 :
        (runLoop env pid pn mp fuel
          (initState env pn pid (some p))).total_reviews_processed % 10 = 0
    · simp [hfin, hstr, h10, hs]
    · simp [hfin, hstr, h10, hs]
  · simp only [Bool.not_eq_true] at hfin
    simp [hfin, hs]

theorem C5_checkpoint_cadence_witness :
    ("o.json" ≠ "")
    ∧ (fetch_and_process_reviews envC5 "p" none (some "o.json") none 30).saves.map
        Prod.fst
      = (List.range' ((loadedData envC5 none "p" (some "o.json")).2 + 1)
          ((fetch_and_process_reviews envC5 "p" none (some "o.json") none
              30).total_reviews_processed
            - (loadedData envC5 none "p" (some "o.json")).2)).filter
          (fun t => t % 10 = 0)
        ++ (if (fetch_and_process_reviews envC5 "p" none (some "o.json") none
                  30).finished = true
              ∧ (fetch_and_process_reviews envC5 "p" none (some "o.json") none
                  30).total_reviews_processed % 10 ≠ 0
            then [(fetch_and_process_reviews envC5 "p" none (some "o.json") none
                    30).total_reviews_processed]
            else []) :=
  ⟨by decide, (C5_checkpoint_cadence envC5 "p" none none 30 "o.json" (by decide)).1⟩

/-- C6 counterexample: a `next` token that is a full URL without a `cursor`
query parameter (`https://x.es/r?page=2`) is not treated as no-next: the
driver issues a second fetch using the whole URL as the cursor, because the
code discriminates on the substring `"cursor="` rather than on URL shape. -/
theorem C6_counterexample :
    (fetch_and_process_reviews envC6 "p" none (some "o") none 5).fetchLog.map
        Prod.fst = [none, some "https://x.es/r?page=2"]
    ∧ nextCursorOf (some "https://x.es/r?page=2")
        = some "https://x.es/r?page=2" := by
  decide

/-- C6 (amended): whenever the loop continues, the cursor of the next fetch is
`nextCursorOf` of the page's `next` token and is truthy; when that value is
falsy (and the page had results) the driver stops.  `nextCursorOf` extracts
the first non-empty `cursor` query-parameter value when the token contains the
substring `"cursor="` (no-next when such a value is absent), and otherwise —
URL-shaped or not — uses the whole token; an empty or absent token is falsy,
so the driver stops on it. -/
theorem C6_amended :
    (∀ (env : Env) (pid : String) (pn : Option String) (mp : Option Nat)
        (st : RunState),
        (loopIter env pid pn mp st).2 = true →
        (loopIter env pid pn mp st).1.cursor
            = nextCursorOf (env.fetch st.cursor).next
          ∧ strTruthy (loopIter env pid pn mp st).1.cursor = true)
    ∧ (∀ (env : Env) (pid : String) (pn : Option String) (mp : Option Nat)
        (st : RunState),
        strTruthy (nextCursorOf (env.fetch st.cursor).next) = false →
        (loopIter env pid pn mp st).2 = false)
    ∧ (∀ s : String, strContainsSub s "cursor=" = false →
        nextCursorOf (some s) = some s)
    ∧ nextCursorOf (some ("https://www.backmarket.es/reviews/v1/products/42/"
        ++ "reviews?order_by=x&cursor=abc123&page=2")) = some "abc123"
    ∧ nextCursorOf (some "https://x.es/r?cursor=") = none
    ∧ nextCursorOf none = none
    ∧ strTruthy (nextCursorOf (some "")) = false := by
  refine ⟨fun env pid pn mp st h => loopIter_cont_cursor env pid pn mp st h,
    fun env pid pn mp st h => loopIter_stop_of_cursor env pid pn mp st h,
    ?_, by decide, by decide, by decide, by decide⟩
  intro s h
  simp [nextCursorOf, h]

theorem C6_amended_witness :
    strContainsSub "opaquetoken123" "cursor=" = false
    ∧ nextCursorOf (some "opaquetoken123") = some "opaquetoken123" :=
  ⟨by decide, C6_amended.2.2.1 "opaquetoken123" (by decide)⟩

/-- C8: with a maximum-pages limit `m ≥ 1`, the driver fetches at most `m`
pages over any fuel, and with fuel at least `m` the loop exits through its
stop condition even when every page supplies a valid next cursor; with
`maxPages = 2` and an unlimited source, exactly 2 pages are fetched. -/
theorem C8_page_cap (env : Env) (pid : String) (pn : Option String)
    (of : Option String) (m fuel : Nat) (hm : 1 ≤ m) :
    ((fetch_and_process_reviews env pid pn of (some m) fuel).fetchLog.length ≤ m
      ∧ (m ≤ fuel →
          (fetch_and_process_reviews env pid pn of (some m) fuel).finished = true))
    ∧ (fetch_and_process_reviews envC8 "p" none (some "o") (some 2)
        10).fetchLog.length = 2
    ∧ (fetch_and_process_reviews envC8 "p" none (some "o") (some 2)
        10).finished = true := by
  refine ⟨?_, by decide, by decide⟩
  have hlen : (initState env pn pid of).fetchLog.length
      = (initState env pn pid of).page_count := rfl
  have hpc : (initState env pn pid of).page_count < m := hm
  obtain ⟨ha, hb⟩ :=
    runLoop_pages env pid pn m hm fuel (initState env pn pid of) hlen hpc
  rw [fp_fetchLog, fp_finished]
  exact ⟨ha, fun hf => hb (by simp [initState]; omega)⟩

theorem C8_page_cap_witness :
    (1 ≤ 2)
    ∧ ((fetch_and_process_reviews envC8 "p" none (some "o") (some 2)
          10).fetchLog.length ≤ 2
        ∧ (2 ≤ 10 →
            (fetch_and_process_reviews envC8 "p" none (some "o") (some 2)
              10).finished = true)) :=
  ⟨by decide, (C8_page_cap envC8 "p" none (some "o") 2 10 (by decide)).1⟩

/-- C9 counterexample: an exception raised by `requests.get` (a network error)
is not caught anywhere in `fetch_product_reviews`, so the function does not
return an error result for it — the exception propagates (modelled by
`Except.error`), refuting "on any fetch failure (non-200 response or network
error) ... returns an error result ... rather than raising". -/
theorem C9_counterexample :
    fetch_product_reviews (HttpOutcome.netError "connection refused")
        = Except.error "connection refused"
    ∧ (fetch_product_reviews (HttpOutcome.netError "connection refused")).isOk
        = false :=
  ⟨rfl, rfl⟩

/-- C9 (amended): on a non-200 response `fetch_product_reviews` returns —
rather than raising — an error dict carrying the failure code (and the body on
a 200 response); a network error propagates as an uncaught exception.  The
driver treats a result without truthy `results` (such as the error dict)
identically to end of pagination: the loop stops with no retry and the
accumulated data and saves are unchanged by that iteration. -/
theorem C9_amended :
    (∀ (status : Nat) (body : ReviewsData), status ≠ 200 →
        fetch_product_reviews (HttpOutcome.response status body)
          = Except.ok ⟨none, none,
              some ("Failed to fetch reviews: " ++ Nat.repr status)⟩)
    ∧ (∀ body : ReviewsData,
        fetch_product_reviews (HttpOutcome.response 200 body) = Except.ok body)
    ∧ (∀ msg : String,
        fetch_product_reviews (HttpOutcome.netError msg) = Except.error msg)
    ∧ (∀ (env : Env) (pid : String) (pn : Option String) (mp : Option Nat)
        (st : RunState),
        resultsTruthy (env.fetch st.cursor) = false →
        (loopIter env pid pn mp st).2 = false
        ∧ (loopIter env pid pn mp st).1.processed_data = st.processed_data
        ∧ (loopIter env pid pn mp st).1.saves = st.saves) := by
  refine ⟨?_, fun body => rfl, fun msg => rfl, ?_⟩
  · intro status body h
    simp [fetch_product_reviews, h]
  · intro env pid pn mp st h
    obtain ⟨h1, h2, _, h4, _, _, _⟩ := loopIter_noResults env pid pn mp st h
    exact ⟨h1, h2, h4⟩

theorem C9_amended_witness :
    (404 ≠ 200)
    ∧ fetch_product_reviews (HttpOutcome.response 404 ⟨none, none, none⟩)
        = Except.ok ⟨none, none,
            some ("Failed to fetch reviews: " ++ Nat.repr 404)⟩ :=
  ⟨by decide, C9_amended.1 404 ⟨none, none, none⟩ (by decide)⟩

/-- C10 counterexample: with a checkpoint of 7 reviews loaded and a first
fetch yielding no results, the driver performs a save — the final save at
line 345 fires because 7 is not a multiple of 10 — rewriting the loaded
content; the claim that no save at all is performed is refuted (the file's
content, though, is rewritten unchanged). -/
theorem C10_counterexample :
    (fetch_and_process_reviews envC10 "42" none (some "o") none 3).saves
        = [(7, ckpt7)]
    ∧ (fetch_and_process_reviews envC10 "42" none (some "o") none 3).saves
        ≠ [] := by
  decide

/-- C10 (amended): if the first fetch of a run yields no truthy results, the
returned collection is identical to the initial state (empty or the loaded
checkpoint), the run finishes, and the only save possibly performed is the
final save, which fires exactly when the output path is truthy and the
initial review count is not a multiple of 10 — rewriting the initial data
unchanged; in every other case no save at all is performed. -/
theorem C10_amended (env : Env) (pid : String) (pn : Option String)
    (of : Option String) (mp : Option Nat) (fuel : Nat) (hf : 1 ≤ fuel)
    (h : resultsTruthy (env.fetch none) = false) :
    (fetch_and_process_reviews env pid pn of mp fuel).processed_data
        = (loadedData env pn pid of).1
    ∧ (fetch_and_process_reviews env pid pn of mp fuel).total_reviews_processed
        = (loadedData env pn pid of).2
    ∧ (fetch_and_process_reviews env pid pn of mp fuel).finished = true
    ∧ (fetch_and_process_reviews env pid pn of mp fuel).saves
        = (if strTruthy of = true ∧ (loadedData env pn pid of).2 % 10 ≠ 0
            then [((loadedData env pn pid of).2, (loadedData env pn pid of).1)]
            else []) := by
  have hcur : resultsTruthy (env.fetch (initState env pn pid of).cursor) = false := h
  obtain ⟨hdata, htot, hsaves, hout, hfin⟩ :=
    runLoop_first_empty env pid pn mp fuel hf (initState env pn pid of) hcur
  have hd0 : (initState env pn pid of).processed_data
      = (loadedData env pn pid of).1 := rfl
  have ht0 : (initState env pn pid of).total_reviews_processed
      = (loadedData env pn pid of).2 := rfl
  have hs0 : (initState env pn pid of).saves = [] := rfl
  have ho0 : (initState env pn pid of).output_file = of := rfl
  rw [hd0] at hdata
  rw [ht0] at htot
  rw [hs0] at hsaves
  rw [ho0] at hout
  rw [fp_data, fp_total, fp_finished, fp_saves]
  refine ⟨hdata, htot, hfin, ?_⟩
  rw [hfin, hout, htot, hsaves]
  by_cases hstr : strTruthy of = true
  · by_cases h10 : (loadedData env pn pid of).2 % 10 = 0
    · simp [hstr, h10, hdata]
    · simp [hstr, h10, hdata]
  · simp only [Bool.not_eq_true] at hstr
    simp [hstr]

theorem C10_amended_witness :
    (1 ≤ 3 ∧ resultsTruthy (envC10.fetch none) = false)
    ∧ (fetch_and_process_reviews envC10 "42" none (some "o") none 3).processed_data
        = (loadedData envC10 none "42" (some "o")).1 :=
  ⟨⟨by decide, by decide⟩,
    (C10_amended envC10 "42" none (some "o") none 3 (by decide) (by decide)).1⟩
